import Mathlib

/-!
Verification development for the MarketAPI repository (marketwatch package).

The definitions below are a shallow embedding of the Python sources:

* `src/marketwatch/api.py`   — the conditional paged fetch client
  (`GlobalAPI._fetch_api`, `_fetch_api_unpaged`, `_fetch_unpaged`,
  `RegionalAPI.__fetch_api_page`, `__fetch_type_order_page`,
  `__fetch_struct_order_page`, `__fetch_paged`, `location_ids`,
  `fetch_location_info`).
* `src/marketwatch/redis.py` — the TTL store (`RedisDatabase.add_orders`,
  `refresh_orders`, `get_orders`, order encode/decode).
* `src/marketwatch/worker.py` and `src/marketwatch/stats.py` — the worker
  pool (`WorkerPool.wait`, `WorkerPool.__process`) and the stat accumulator.

Modelling conventions:

* HTTP traffic is an oracle: each network call consumes one `Transport`
  value (a response, or a transport-level exception).  Python exceptions
  are modelled with `Except String`; a `.error` value is an exception
  propagating out of the embedded function.
* Wall-clock time is an explicit `Int` parameter (epoch seconds); sleeps
  are recorded as a list of back-off amounts in units of 0.5 seconds
  (the code sleeps `0.5 * num_errors`, the model records `num_errors`).
* Stat-counter updates and log lines do not affect control flow or
  returned data; they are omitted from the fetch/store embeddings and
  modelled separately (`Stats`) where a claim is about them.
* Python floats that are only passed through (`price`) are modelled as
  integers; `str`/`float` round-tripping is the identity on them.
-/

namespace MarketAPI

/-- Number of 500-series error retries (`GlobalAPI._ERROR_RETRIES`). -/
def ERROR_RETRIES : Nat := 3

/-- One parsed market order as delivered by the ESI order endpoints; the
page-level code only ever reads `order_id` (`int(order['order_id'])`),
the rest of the payload is forwarded opaquely, so the payload is the
record itself. -/
structure EsiOrder where
  order_id : Int
  deriving DecidableEq, Repr

/-- An HTTP response as seen by the fetch client: a status code, the
optional `etag` and `x-pages` headers, and the parsed JSON body. -/
structure HttpResponse (α : Type) where
  status_code : Nat
  etagHeader : Option String
  xPagesHeader : Option Int
  body : α
  deriving DecidableEq, Repr

/-- The outcome of one `session.get` call: either the transport raises
(network failure) or a response object is produced.  `requests` only
raises from `raise_for_status` for status >= 400, which the code catches;
a transport-level error from `get` itself is not caught anywhere in
`api.py`. -/
inductive Transport (α : Type) where
  | netError
  | response (r : HttpResponse α)
  deriving DecidableEq, Repr

/-- Embedding of `GlobalAPI._fetch_api` (api.py lines 260-285).  Returns
the pair `(request, etag)`: `none` for the Python `None` request when
authentication is required but no token is set, otherwise the response
together with the etag extracted from its headers (empty when the status
made `raise_for_status` throw, or when the header is absent).  A
transport-level network error propagates as an exception. -/
def fetch_api (accessToken : String) (needsAuth : Bool) (t : Transport α) :
    Except String (Option (HttpResponse α) × String) :=
  if needsAuth && accessToken == "" then
    .ok (none, "")
  else
    match t with
    | .netError => .error "ConnectionError"
    | .response r =>
        if r.status_code ≥ 400 then
          .ok (some r, "")
        else
          .ok (some r, r.etagHeader.getD "")

/-- Embedding of `GlobalAPI._fetch_api_unpaged` (api.py lines 245-258).
Returns `(success, data, status)` exactly as the source does: a missing
request object is reported as status 403. -/
def fetch_api_unpaged (accessToken : String) (needsAuth : Bool)
    (t : Transport α) : Except String (Bool × Option α × Nat) :=
  match fetch_api accessToken needsAuth t with
  | .error e => .error e
  | .ok (req?, _etag) =>
      match req? with
      | none => .ok (false, none, 403)
      | some r =>
          if r.status_code ≥ 400 then .ok (false, none, r.status_code)
          else if r.status_code == 304 then .ok (true, none, 304)
          else .ok (true, some r.body, 200)

/-- Retry loop of `GlobalAPI._fetch_unpaged` (api.py lines 225-243).
`ts i` is the transport outcome of the i-th call.  Returns the final
`data` value together with the number of calls made and the recorded
back-off sleeps (in units of 0.5 s).  The loop breaks on success, on an
exhausted retry budget, or on a status below 500; otherwise it sleeps
`0.5 * num_errors` and retries. -/
def fetch_unpaged_go (accessToken : String) (needsAuth : Bool)
    (ts : Nat → Transport α) (i numErrors : Nat) (sleeps : List Nat) :
    Except String (Option α × Nat × List Nat) :=
  match fetch_api_unpaged accessToken needsAuth (ts i) with
  | .error e => .error e
  | .ok (success, data, status) =>
      if success = true ∨ numErrors ≥ ERROR_RETRIES then
        .ok (data, i + 1, sleeps)
      else if status < 500 then
        .ok (data, i + 1, sleeps)
      else
        fetch_unpaged_go accessToken needsAuth ts (i + 1) (numErrors + 1)
          (sleeps ++ [numErrors + 1])
  termination_by ERROR_RETRIES - numErrors
  decreasing_by
    simp only [ERROR_RETRIES] at *
    omega

/-- Embedding of `GlobalAPI._fetch_unpaged` started the way the source
starts it: zero errors so far, first call. -/
def fetch_unpaged (accessToken : String) (needsAuth : Bool)
    (ts : Nat → Transport α) : Except String (Option α × Nat × List Nat) :=
  fetch_unpaged_go accessToken needsAuth ts 0 0 []

/-- Embedding of `RegionalAPI.Page` (api.py lines 313-322): pagination
state for one page of one paged resource.  `cache` is `None` until the
first non-empty changed order payload is seen. -/
structure Page where
  etag : String
  number : Nat
  cache : Option (List Int)
  deriving DecidableEq, Repr

/-- Embedding of `RegionalAPI.__fetch_api_page` (api.py lines 576-598).
The page's etag is overwritten with the etag returned by `_fetch_api`
before the error check.  When `_fetch_api` returned `None` (needed auth,
no token), the source evaluates `request.status_code` on `None`, raising
`AttributeError`; this is modelled as an exception value. -/
def fetch_api_page (accessToken : String) (needsAuth : Bool) (page : Page)
    (t : Transport α) : Except String (Page × Int × Option α × Nat) :=
  match fetch_api accessToken needsAuth t with
  | .error e => .error e
  | .ok (req?, etag) =>
      let page' : Page := { page with etag := etag }
      match req? with
      | none => .error "AttributeError: NoneType has no attribute status_code"
      | some r =>
          if r.status_code ≥ 400 then
            .ok (page', -1, none, r.status_code)
          else
            let maxPages : Int := r.xPagesHeader.getD 1
            if r.status_code == 304 then
              .ok (page', maxPages, none, r.status_code)
            else
              .ok (page', maxPages, some r.body, r.status_code)

/-- Embedding of `RegionalAPI.__fetch_type_order_page` (api.py lines
501-524), for one fixed `Page` object: the read-or-create of the page in
`__order_pages` under the per-class lock selects which `Page` this is and
is outside the per-page model.  A truthy (non-empty) order payload
rewrites `page.cache` with the payload's order IDs and forwards no cache
list; a falsy payload (`None` from a 304/failure, or an empty changed
list) leaves `page.cache` alone and forwards it. -/
def fetch_type_order_page (accessToken : String) (needsAuth : Bool)
    (page : Page) (t : Transport (List EsiOrder)) :
    Except String (Page × Int × Option (List EsiOrder) × Option (List Int) × Nat) :=
  match fetch_api_page accessToken needsAuth page t with
  | .error e => .error e
  | .ok (page', maxPages, orders, status) =>
      match orders with
      | some os =>
          if os.isEmpty then
            .ok (page', maxPages, some os, page'.cache, status)
          else
            .ok ({ page' with cache := some (os.map (·.order_id)) },
                 maxPages, some os, none, status)
      | none => .ok (page', maxPages, none, page'.cache, status)

/-- Embedding of `RegionalAPI.__fetch_struct_order_page` (api.py lines
476-499).  After the per-class-locked read-or-create of the `Page` in
`__struct_pages` (outside the per-page model), its body is identical to
`__fetch_type_order_page` up to the request URL, which is not part of
the model. -/
def fetch_struct_order_page (accessToken : String) (needsAuth : Bool)
    (page : Page) (t : Transport (List EsiOrder)) :
    Except String (Page × Int × Option (List EsiOrder) × Option (List Int) × Nat) :=
  match fetch_api_page accessToken needsAuth page t with
  | .error e => .error e
  | .ok (page', maxPages, orders, status) =>
      match orders with
      | some os =>
          if os.isEmpty then
            .ok (page', maxPages, some os, page'.cache, status)
          else
            .ok ({ page' with cache := some (os.map (·.order_id)) },
                 maxPages, some os, none, status)
      | none => .ok (page', maxPages, none, page'.cache, status)

/-- The Python truthiness-guarded append `if data: data_pages.append(data)`
from api.py lines 564-567: `None` and the empty list are falsy. -/
def appendTruthy (acc : List (List γ)) (x : Option (List γ)) : List (List γ) :=
  match x with
  | some l => if l.isEmpty then acc else acc ++ [l]
  | none => acc

/-- One result of the page-fetch function `func` called by
`RegionalAPI.__fetch_paged`: the `(max_pages, data, cache, status)`
tuple returned by `__fetch_type_order_page`, `__fetch_struct_order_page`
or `__fetch_type_page`. -/
structure PageResult (β : Type) where
  maxPages : Int
  data : Option (List β)
  cache : Option (List Int)
  status : Nat
  deriving DecidableEq, Repr

/-- Loop of `RegionalAPI.__fetch_paged` (api.py lines 539-574), in the
buffering (no-callback) mode.  `os i` is the tuple returned by the i-th
call of `func`; `fuel` bounds the number of iterations the model will
unfold (`none` means the bound was hit, i.e. the source loop has not
terminated within `fuel` iterations).  The result carries the returned
`(data_pages, cache_pages)` pair — `(none, none)` for the terminal
client-error return `(None, None)` — plus the number of calls made and
the recorded back-off sleeps in units of 0.5 s. -/
def fetch_paged_go (os : Nat → PageResult β)
    (fuel i currentPage numErrors : Nat)
    (dataPages : List (List β)) (cachePages : List (List Int))
    (sleeps : List Nat) :
    Option (Option (List (List β)) × Option (List (List Int)) × Nat × List Nat) :=
  match fuel with
  | 0 => none
  | fuel' + 1 =>
      let r := os i
      if 400 ≤ r.status ∧ r.status < 500 then
        some (none, none, i + 1, sleeps)
      else if r.maxPages < 1 then
        if numErrors ≥ ERROR_RETRIES then
          some (some dataPages, some cachePages, i + 1, sleeps)
        else
          fetch_paged_go os fuel' (i + 1) currentPage (numErrors + 1)
            dataPages cachePages (sleeps ++ [numErrors + 1])
      else
        let dataPages' := appendTruthy dataPages r.data
        let cachePages' := appendTruthy cachePages r.cache
        if (currentPage : Int) ≥ r.maxPages then
          some (some dataPages', some cachePages', i + 1, sleeps)
        else
          fetch_paged_go os fuel' (i + 1) (currentPage + 1) numErrors
            dataPages' cachePages' sleeps

/-- Embedding of `RegionalAPI.__fetch_paged` started the way the source
starts it: page 1, zero errors, empty accumulators. -/
def fetch_paged (os : Nat → PageResult β) (fuel : Nat) :
    Option (Option (List (List β)) × Option (List (List Int)) × Nat × List Nat) :=
  fetch_paged_go os fuel 0 1 0 [] [] []

/-- Key expiry in seconds for market orders
(`RedisDatabase.__MARKET_ORDER_TTL`). -/
def MARKET_ORDER_TTL : Int := 1200

/-- The stored order payload fields, following `__ORDER_FIELDS`
(redis.py lines 152-161): the colon-joined string produced by
`__encode_fields` and split again by `__decode_fields` composes to the
identity on these fields (none of them contains a colon), so the stored
value is modelled as the field record itself.  `buy` is `int(bool)`,
`price` is a pass-through numeric modelled as `Int`. -/
structure OrderFields where
  sid : Int
  lid : Int
  buy : Int
  minvol : Int
  totvol : Int
  remvol : Int
  price : Int
  range : String
  deriving DecidableEq, Repr

/-- One market order as submitted to `add_orders` (the ESI payload
fields the store reads).  `issuedEpoch` is the epoch timestamp of the
parsed `issued` time. -/
structure MarketOrder where
  order_id : Int
  type_id : Int
  system_id : Int
  location_id : Int
  is_buy_order : Bool
  min_volume : Int
  volume_total : Int
  volume_remain : Int
  price : Int
  range : String
  issuedEpoch : Int
  duration : Int
  deriving DecidableEq, Repr

/-- The decoded stored record: the `__ORDER_FIELDS` payload plus the
derived `expiry` appended by `__encode_order` / read back by
`__decode_order`. -/
structure StoredOrder where
  fields : OrderFields
  expiry : Int
  deriving DecidableEq, Repr

/-- Embedding of `RedisDatabase.__encode_order` (redis.py lines
797-806): extract the `__ORDER_FIELDS`, then append
`expiry = int((strptime(issued) + timedelta(days=duration)).timestamp())`,
i.e. the issue timestamp plus `86400 * duration` seconds. -/
def encode_order (o : MarketOrder) : StoredOrder :=
  { fields :=
      { sid := o.system_id
        lid := o.location_id
        buy := if o.is_buy_order then 1 else 0
        minvol := o.min_volume
        totvol := o.volume_total
        remvol := o.volume_remain
        price := o.price
        range := o.range }
    expiry := o.issuedEpoch + 86400 * o.duration }

/-- One record returned by `get_orders`: the decoded payload plus the
`age` and `rid` fields added in the read loop (redis.py lines 704-709). -/
structure OrderResult where
  fields : OrderFields
  expiry : Int
  age : Int
  rid : Int
  deriving DecidableEq, Repr

/-- The slice of the Redis keyspace the order operations touch: the
string keys named by raw order IDs (value plus absolute expiry time) and
the `rt:region:type` membership SETs.  SET member enumeration order is
unspecified in Redis; the model uses insertion order. -/
structure RedisState where
  kv : Int → Option (StoredOrder × Int)
  typeSets : Int × Int → List Int

/-- A Redis `GET`/existence check at time `now`: a key whose expiry time
has been reached behaves as absent. -/
def redisGet (st : RedisState) (now : Int) (key : Int) :
    Option (StoredOrder × Int) :=
  match st.kv key with
  | none => none
  | some (v, e) => if now < e then some (v, e) else none

/-- Redis `SADD` of a single member (appends when absent). -/
def sadd (s : List Int) (x : Int) : List Int :=
  if x ∈ s then s else s ++ [x]

/-- The per-order effect inside the `add_orders` pipeline: `SET order_id
encoded`, `EXPIRE order_id 1200`, and `SADD` of the order ID into the
`(region, type)` set (redis.py lines 459-466). -/
def addOrderStep (s : RedisState) (now region : Int) (o : MarketOrder) :
    RedisState :=
  { kv := fun k =>
      if k = o.order_id then some (encode_order o, now + MARKET_ORDER_TTL)
      else s.kv k
    typeSets := fun rt =>
      if rt = (region, o.type_id) then sadd (s.typeSets rt) o.order_id
      else s.typeSets rt }

/-- Embedding of `RedisDatabase.add_orders` (redis.py lines 446-473):
one pipeline applying `addOrderStep` per submitted order, in order. -/
def add_orders (st : RedisState) (now : Int) (region : Int)
    (orders : List MarketOrder) : RedisState :=
  orders.foldl (fun s o => addOrderStep s now region o) st

/-- One `EXPIRE order_id 1200` within the refresh pipeline: `EXPIRE` on
an absent (or already expired) key is a no-op and never creates a key;
on a live key it re-bases the expiry without touching the value. -/
def refreshOrderStep (s : RedisState) (now oid : Int) : RedisState :=
  match redisGet s now oid with
  | none => s
  | some (v, _) =>
      { s with kv := fun k =>
          if k = oid then some (v, now + MARKET_ORDER_TTL) else s.kv k }

/-- Embedding of `RedisDatabase.refresh_orders` (redis.py lines
475-496): one pipeline of `EXPIRE order_id 1200` per listed ID. -/
def refresh_orders (st : RedisState) (now : Int) (orderIds : List Int) :
    RedisState :=
  orderIds.foldl (fun s oid => refreshOrderStep s now oid) st

/-- The Python truthiness test `not system_id or sid == system_id` from
redis.py line 705: `system_id` of `None` (or `0`) disables the filter. -/
def systemMatches (system? : Option Int) (sid : Int) : Bool :=
  match system? with
  | none => true
  | some s => if s == 0 then true else sid == s

/-- The read loop of `get_orders` over the pipelined `GET`/`TTL` result
pairs, in membership order (redis.py lines 698-712): a dead member is
collected for removal; a live one is decoded, filtered by the optional
system ID, and annotated with `age = 1200 - ttl` and `rid`. -/
def get_orders_scan (st : RedisState) (now : Int) (region : Int)
    (system? : Option Int) : List Int → List OrderResult × List Int
  | [] => ([], [])
  | oid :: rest =>
      let tail := get_orders_scan st now region system? rest
      match redisGet st now oid with
      | none => (tail.1, oid :: tail.2)
      | some (v, e) =>
          if systemMatches system? v.fields.sid then
            ({ fields := v.fields, expiry := v.expiry,
               age := MARKET_ORDER_TTL - (e - now), rid := region } :: tail.1,
             tail.2)
          else tail

/-- Embedding of `RedisDatabase.get_orders` (redis.py lines 669-719):
read the membership set, pipeline a `GET` and `TTL` per member, decode
live records, collect dead IDs, and as a side effect `SREM` the dead
IDs from the set.  Returns the order list and the updated store. -/
def get_orders (st : RedisState) (now : Int) (region ty : Int)
    (system? : Option Int) : List OrderResult × RedisState :=
  let scan := get_orders_scan st now region system? (st.typeSets (region, ty))
  let st' : RedisState :=
    { st with typeSets := fun rt =>
        if rt = (region, ty) then
          (st.typeSets rt).filter (fun oid => !(scan.2.contains oid))
        else st.typeSets rt }
  (scan.1, st')

/-- The store with no order keys and empty membership sets. -/
def RedisState.empty : RedisState :=
  { kv := fun _ => none, typeSets := fun _ => [] }

/-- The maximum valid station ID (`RegionalAPI.__STATION_MAX`). -/
def STATION_MAX : Int := 69999999

/-- Python tuple-unpacking of one element produced by iterating the
location-cache dict.  Iterating a dict yields its keys — here plain
integers — and unpacking an integer as `loc, valid` raises `TypeError`
unconditionally. -/
def unpackIntPair (_k : Int) : Except String (Int × Bool) :=
  .error "TypeError: cannot unpack non-iterable int object"

/-- Embedding of `RegionalAPI.location_ids` (api.py lines 355-360): the
comprehension `[loc for loc, valid in self.__location_cache if valid]`
iterates the dict's keys and tuple-unpacks each one; the dict is
modelled as an association list keyed by location ID. -/
def location_ids (cache : List (Int × Bool)) : Except String (List Int) := do
  let pairs ← (cache.map Prod.fst).mapM unpackIntPair
  return (pairs.filter (fun p => p.2)).map Prod.fst

/-- Insertion/update into the location-cache dict. -/
def dictInsert (cache : List (Int × Bool)) (k : Int) (v : Bool) :
    List (Int × Bool) :=
  if (cache.map Prod.fst).contains k then
    cache.map (fun p => if p.1 = k then (k, v) else p)
  else cache ++ [(k, v)]

/-- The effect of `RegionalAPI.fetch_location_info` (api.py lines
362-394) on `__location_cache`:  a known ID leaves the cache unchanged;
a station ID (≤ `__STATION_MAX`) is recorded as `False` only when its
info fetch returned a truthy value; a structure ID is recorded as
`False` on a falsy fetch and `True` on a truthy one.  `infoOk` is the
truthiness of the fetched info. -/
def fetch_location_info_cache (cache : List (Int × Bool))
    (locationId : Int) (infoOk : Bool) : List (Int × Bool) :=
  if (cache.map Prod.fst).contains locationId then cache
  else if locationId ≤ STATION_MAX then
    if infoOk then dictInsert cache locationId false else cache
  else
    if infoOk then dictInsert cache locationId true
    else dictInsert cache locationId false

/-- Stat accumulator (`stats.Stats`): per category (REQUEST, UPDATE) the
`total`, `changed`, `failure` and `time` counters; `time` is a float in
the source used only additively, modelled as `Int`. -/
structure Stats where
  total : Int × Int
  changed : Int × Int
  failure : Int × Int
  time : Int × Int
  deriving DecidableEq, Repr

/-- A zero-initialised `Stats` (`Stats.__init__` / `Stats.reset`). -/
def Stats.zero : Stats :=
  { total := (0, 0), changed := (0, 0), failure := (0, 0), time := (0, 0) }

/-- Embedding of `Stats.__iadd__` (component-wise accumulation). -/
def Stats.add (a b : Stats) : Stats :=
  { total := (a.total.1 + b.total.1, a.total.2 + b.total.2)
    changed := (a.changed.1 + b.changed.1, a.changed.2 + b.changed.2)
    failure := (a.failure.1 + b.failure.1, a.failure.2 + b.failure.2)
    time := (a.time.1 + b.time.1, a.time.2 + b.time.2) }

/-- The stat phase of `WorkerPool.wait` (worker.py lines 121-127): sum
every worker's accumulator into a fresh total and reset each worker's
accumulator to zero; the total is what gets logged by `total.dump`. -/
def pool_wait_stats (ws : List Stats) : Stats × List Stats :=
  (ws.foldl Stats.add Stats.zero, ws.map (fun _ => Stats.zero))

/-- State of the task queue and workers, abstracted over task identity:
`pending` is the FIFO queue contents, `running` holds tasks a worker has
popped but not yet passed to `task_done`, each paired with the list of
follow-on tasks it has not yet enqueued, and `completed` are the tasks
whose `task_done` has run. `queue.unfinished_tasks` — the counter
`queue.join` blocks on — equals `pending.length + running.length`. -/
structure PoolState where
  pending : List Nat
  running : List (Nat × List Nat)
  completed : List Nat

/-- Interleaved small-step semantics of `WorkerPool.__process` (worker.py
lines 129-139) running on any number of worker threads against the shared
queue: a worker pops the queue head (`get`), a running task enqueues its
next follow-on task (`pool.enqueue` inside `work(pool, worker)`), and a
running task with nothing left to enqueue finishes (`task_done`).
`children t` is the list of tasks task `t` enqueues while it runs; every
enqueue a task performs happens before its `task_done`. -/
inductive PoolStep (children : Nat → List Nat) : PoolState → PoolState → Prop
  | get (t : Nat) (rest : List Nat) (run : List (Nat × List Nat))
      (comp : List Nat) :
      PoolStep children ⟨t :: rest, run, comp⟩
        ⟨rest, run ++ [(t, children t)], comp⟩
  | enq (t c : Nat) (cs : List Nat) (pend : List Nat)
      (run1 run2 : List (Nat × List Nat)) (comp : List Nat) :
      PoolStep children ⟨pend, run1 ++ (t, c :: cs) :: run2, comp⟩
        ⟨pend ++ [c], run1 ++ (t, cs) :: run2, comp⟩
  | done (t : Nat) (pend : List Nat) (run1 run2 : List (Nat × List Nat))
      (comp : List Nat) :
      PoolStep children ⟨pend, run1 ++ (t, []) :: run2, comp⟩
        ⟨pend, run1 ++ run2, comp ++ [t]⟩

/-- Reachability under the pool semantics. -/
def PoolReach (children : Nat → List Nat) : PoolState → PoolState → Prop :=
  Relation.ReflTransGen (PoolStep children)

/-- A task is accounted for by the pool: queued, running, or completed. -/
def inSystem (s : PoolState) (t : Nat) : Prop :=
  t ∈ s.pending ∨ (∃ cs, (t, cs) ∈ s.running) ∨ t ∈ s.completed

theorem location_ids_nil : location_ids [] = Except.ok [] := rfl

theorem location_ids_cons (p : Int × Bool) (rest : List (Int × Bool)) :
    location_ids (p :: rest) =
      Except.error "TypeError: cannot unpack non-iterable int object" := rfl

/-- Claim C10: `RegionalAPI.location_ids` returns a value (the empty
list) only when the location cache is empty; whenever at least one
location has been recorded by `fetch_location_info`, `location_ids`
raises a `TypeError`, because it iterates the cache dict's integer keys
and attempts to unpack each key as a `(loc, valid)` pair. -/
theorem C10_location_ids_raises (cache : List (Int × Bool)) :
    (∀ l, location_ids cache = Except.ok l → cache = [] ∧ l = []) ∧
    (cache ≠ [] →
      location_ids cache =
        Except.error "TypeError: cannot unpack non-iterable int object") ∧
    (∀ (cache0 : List (Int × Bool)) (locationId : Int) (infoOk : Bool),
      fetch_location_info_cache cache0 locationId infoOk ≠ [] →
      location_ids (fetch_location_info_cache cache0 locationId infoOk) =
        Except.error "TypeError: cannot unpack non-iterable int object") := by
  have key : ∀ c : List (Int × Bool), c ≠ [] →
      location_ids c =
        Except.error "TypeError: cannot unpack non-iterable int object" := by
    intro c hc
    match c with
    | [] => exact absurd rfl hc
    | p :: rest => exact location_ids_cons p rest
  refine ⟨?_, key cache, fun cache0 locationId infoOk h => key _ h⟩
  intro l hl
  match cache with
  | [] =>
      refine ⟨rfl, ?_⟩
      simpa [location_ids_nil] using hl.symm
  | p :: rest =>
      rw [location_ids_cons] at hl
      exact absurd hl (by simp)

theorem C10_location_ids_raises_witness :
    location_ids (fetch_location_info_cache [] 1035466617946 true) =
      Except.error "TypeError: cannot unpack non-iterable int object" :=
  (C10_location_ids_raises
    (fetch_location_info_cache [] 1035466617946 true)).2.2 [] 1035466617946 true
    (by decide)

/-- Claim C8 (evaluation at the failing input): with authentication
required and no access token set, `_fetch_api` signals a local error by
returning a `None` request without touching the network; the unpaged
path honors that signal (classifies it as a 403, returns null after one
attempt, no retry), but the paged path `__fetch_api_page` evaluates
`request.status_code` on `None` and raises `AttributeError`, for every
page state and any transport. -/
theorem C8_missing_token_paged_raises (page : Page)
    (t : Transport (List EsiOrder)) (ts : Nat → Transport (List EsiOrder)) :
    fetch_api_page "" true page t =
      Except.error "AttributeError: NoneType has no attribute status_code" ∧
    fetch_unpaged "" true ts = Except.ok (none, 1, []) := by
  constructor
  · rfl
  · rw [fetch_unpaged, fetch_unpaged_go]
    rfl

theorem fetch_api_unpaged_of_response {α : Type} (accessToken : String)
    (needsAuth : Bool) (r : HttpResponse α)
    (hauth : (needsAuth && (accessToken == "")) = false)
    (h400 : 400 ≤ r.status_code) :
    fetch_api_unpaged accessToken needsAuth (Transport.response r) =
      Except.ok (false, none, r.status_code) := by
  simp [fetch_api_unpaged, fetch_api, hauth, h400]

theorem fetch_unpaged_go_all500 {α : Type} (accessToken : String)
    (needsAuth : Bool) (ts : Nat → Transport α)
    (hauth : (needsAuth && (accessToken == "")) = false)
    (hts : ∀ i, ∃ r, ts i = Transport.response r ∧ 500 ≤ r.status_code) :
    ∀ k i numErrors sleeps, ERROR_RETRIES - numErrors = k →
      fetch_unpaged_go accessToken needsAuth ts i numErrors sleeps =
        Except.ok (none, i + (ERROR_RETRIES - numErrors) + 1,
          sleeps ++ List.range' (numErrors + 1) (ERROR_RETRIES - numErrors)) := by
  intro k
  induction k with
  | zero =>
      intro i numErrors sleeps hk
      obtain ⟨r, hr, h500⟩ := hts i
      rw [fetch_unpaged_go, hr,
        fetch_api_unpaged_of_response accessToken needsAuth r hauth (by omega)]
      have hge : numErrors ≥ ERROR_RETRIES := by
        simp only [ERROR_RETRIES] at hk ⊢; omega
      simp [hge, hk]
  | succ k ih =>
      intro i numErrors sleeps hk
      obtain ⟨r, hr, h500⟩ := hts i
      rw [fetch_unpaged_go, hr,
        fetch_api_unpaged_of_response accessToken needsAuth r hauth (by omega)]
      have hlt : numErrors < ERROR_RETRIES := by
        simp only [ERROR_RETRIES] at hk ⊢; omega
      rw [ih (i + 1) (numErrors + 1) (sleeps ++ [numErrors + 1]) (by omega)]
      have hns : ¬(false = true ∨ numErrors ≥ ERROR_RETRIES) := by
        rintro (h | h)
        · exact absurd h (by simp)
        · omega
      have h500n : ¬(r.status_code < 500) := by omega
      simp only [hns, if_false, h500n, if_neg]
      have harith : ERROR_RETRIES - numErrors = (ERROR_RETRIES - (numErrors + 1)) + 1 := by
        simp only [ERROR_RETRIES] at hlt ⊢
        omega
      rw [harith, List.range'_succ]
      simp only [Except.ok.injEq, Prod.mk.injEq, List.append_assoc,
        List.singleton_append, true_and, and_true]
      omega

/-- Claim C4 counterexample: a missing response is not retried.  With
authentication required and no token set, `_fetch_api` produces the
`None` request ("missing response") and `_fetch_unpaged` gives up after
a single attempt, with no sleeps, returning null — not retried 3 times.
A transport-level network failure does not even yield a missing
response: the exception from `session.get` propagates out of
`_fetch_unpaged` un-retried. -/
theorem C4_missing_response_not_retried :
    fetch_unpaged "" true (fun _ => Transport.netError (α := List Int)) =
      Except.ok (none, 1, []) ∧
    fetch_unpaged "token" false (fun _ => Transport.netError (α := List Int)) =
      Except.error "ConnectionError" := by
  constructor
  · rw [fetch_unpaged, fetch_unpaged_go]; rfl
  · rw [fetch_unpaged, fetch_unpaged_go]; rfl

/-- Claim C4 (amended): in `_fetch_unpaged`, a response with a
client-error status in 400-499 makes the fetch fail immediately with no
retry and a null result; a server-error status ≥ 500 is retried up to 3
times, sleeping 0.5 s times the number of failures so far before each
retry, before giving up with a null result; a missing response object
(authentication failure) is classified as status 403 and fails
immediately without retry; a transport-level network failure raises out
of the fetch un-retried. -/
theorem C4_unpaged_error_classification {α : Type} (accessToken : String)
    (needsAuth : Bool) (ts : Nat → Transport α) (r : HttpResponse α)
    (hauth : (needsAuth && (accessToken == "")) = false) :
    (ts 0 = Transport.response r → 400 ≤ r.status_code →
      r.status_code < 500 →
      fetch_unpaged accessToken needsAuth ts = Except.ok (none, 1, [])) ∧
    ((∀ i, ∃ ri, ts i = Transport.response ri ∧ 500 ≤ ri.status_code) →
      fetch_unpaged accessToken needsAuth ts =
        Except.ok (none, 4, [1, 2, 3])) ∧
    (∀ ts2 : Nat → Transport α,
      fetch_unpaged "" true ts2 = Except.ok (none, 1, [])) ∧
    (ts 0 = Transport.netError →
      fetch_unpaged accessToken needsAuth ts =
        Except.error "ConnectionError") := by
  refine ⟨?_, ?_, ?_, ?_⟩
  · intro h0 h400 h500
    rw [fetch_unpaged, fetch_unpaged_go, h0,
      fetch_api_unpaged_of_response accessToken needsAuth r hauth h400]
    simp [ERROR_RETRIES, h500]
  · intro hts
    have h := fetch_unpaged_go_all500 accessToken needsAuth ts hauth hts
      (ERROR_RETRIES - 0) 0 0 [] rfl
    rw [fetch_unpaged, h]
    rfl
  · intro ts2
    rw [fetch_unpaged, fetch_unpaged_go]
    rfl
  · intro h0
    rw [fetch_unpaged, fetch_unpaged_go, h0, fetch_api_unpaged, fetch_api]
    rw [if_neg (by simp [hauth])]

theorem C4_unpaged_error_classification_witness :
    fetch_unpaged "token" false
      (fun _ => Transport.response
        ({ status_code := 404, etagHeader := none, xPagesHeader := none,
           body := (0 : Int) })) = Except.ok (none, 1, []) ∧
    fetch_unpaged "token" false
      (fun _ => Transport.response
        ({ status_code := 502, etagHeader := none, xPagesHeader := none,
           body := (0 : Int) })) = Except.ok (none, 4, [1, 2, 3]) := by
  constructor
  · exact (C4_unpaged_error_classification "token" false _
      ({ status_code := 404, etagHeader := none, xPagesHeader := none,
         body := (0 : Int) }) (by decide)).1 rfl (by decide) (by decide)
  · exact (C4_unpaged_error_classification "token" false _
      ({ status_code := 502, etagHeader := none, xPagesHeader := none,
         body := (0 : Int) }) (by decide)).2.1
      (fun i => ⟨_, rfl, by decide⟩)

theorem fetch_paged_go_budget_exhausted {β : Type} (os : Nat → PageResult β)
    (fuel i currentPage : Nat) (dataPages : List (List β))
    (cachePages : List (List Int)) (sleeps : List Nat)
    (htrans : (os i).maxPages < 1)
    (hstat : ¬(400 ≤ (os i).status ∧ (os i).status < 500)) :
    fetch_paged_go os (fuel + 1) i currentPage ERROR_RETRIES dataPages
        cachePages sleeps =
      some (some dataPages, some cachePages, i + 1, sleeps) := by
  rw [fetch_paged_go]
  simp only [hstat, if_false, htrans, if_pos, ge_iff_le, le_refl, if_true]

/-- Claim C5 counterexample: an oracle whose first call succeeds (page 1
of 2, one data row) and whose later calls all fail transiently (status
500).  After exhausting the 3 retries the loop breaks and returns the
accumulated `(data_pages, cache_pages) = ([[7]], [])` as a normal
result — not the distinguishable `(None, None)` failure that a terminal
client error produces (second conjunct). -/
theorem C5_budget_exhaustion_returns_pages :
    fetch_paged
      (fun j => if j = 0 then ({ maxPages := 2, data := some [7], cache := none, status := 200 } : PageResult Int)
                else { maxPages := -1, data := none, cache := none, status := 500 }) 10 =
      some (some [[7]], some [], 5, [1, 2, 3]) ∧
    fetch_paged (fun _ => ({ maxPages := -1, data := none, cache := none, status := 404 } : PageResult Int)) 10 =
      some (none, none, 1, []) := by
  constructor
  · rfl
  · rfl

/-- Claim C5 (amended): when `__fetch_paged` meets a transient failure
with its retry budget already exhausted (`num_errors = 3`), it stops
immediately — no further retry — but returns the pages accumulated so
far as a normal `(data_pages, cache_pages)` result, exactly as a
successful run would; only a terminal client-error status 400-499
produces the distinguishable `(None, None)` abandonment.  The failed
requests are visible to callers only through the failure stat counters
recorded per request by the page fetcher. -/
theorem C5_budget_exhaustion_gives_up {β : Type} (os : Nat → PageResult β)
    (fuel i currentPage : Nat) (dataPages : List (List β))
    (cachePages : List (List Int)) (sleeps : List Nat)
    (htrans : (os i).maxPages < 1)
    (hstat : ¬(400 ≤ (os i).status ∧ (os i).status < 500)) :
    fetch_paged_go os (fuel + 1) i currentPage ERROR_RETRIES dataPages
        cachePages sleeps =
      some (some dataPages, some cachePages, i + 1, sleeps) ∧
    (∀ (os2 : Nat → PageResult β) (fuel2 i2 cp2 ne2 : Nat) d2 c2 sl2,
      400 ≤ (os2 i2).status → (os2 i2).status < 500 →
      fetch_paged_go os2 (fuel2 + 1) i2 cp2 ne2 d2 c2 sl2 =
        some (none, none, i2 + 1, sl2)) := by
  constructor
  · exact fetch_paged_go_budget_exhausted os fuel i currentPage dataPages
      cachePages sleeps htrans hstat
  · intro os2 fuel2 i2 cp2 ne2 d2 c2 sl2 h1 h2
    rw [fetch_paged_go]
    simp only [h1, h2, and_self, if_true, if_pos]

theorem C5_budget_exhaustion_gives_up_witness :
    fetch_paged_go (fun _ => ({ maxPages := -1, data := none, cache := none, status := 500 } : PageResult Int))
        1 4 2 ERROR_RETRIES [[5]] [[6]] [1, 2, 3] =
      some (some [[5]], some [[6]], 5, [1, 2, 3]) :=
  (C5_budget_exhaustion_gives_up
    (fun _ => ({ maxPages := -1, data := none, cache := none, status := 500 } : PageResult Int))
    0 4 2 [[5]] [[6]] [1, 2, 3] (by decide) (by decide)).1

theorem fetch_paged_go_terminates {β : Type} (os : Nat → PageResult β)
    (M : Nat) (hB : ∀ j, (os j).maxPages ≤ (M : Int)) (fuel : Nat) :
    ∀ i cp ne dp cps sl, 1 ≤ cp → ne ≤ ERROR_RETRIES →
      (M + 1 - cp) + (ERROR_RETRIES - ne) < fuel →
      ∃ d c calls sl2,
        fetch_paged_go os fuel i cp ne dp cps sl = some (d, c, calls, sl2) ∧
        calls ≤ i + (M + 1 - cp) + (ERROR_RETRIES - ne) + 1 ∧
        sl2.length ≤ sl.length + (ERROR_RETRIES - ne) := by
  induction fuel with
  | zero =>
      intro i cp ne dp cps sl h1 h2 h3
      omega
  | succ fuel ih =>
      intro i cp ne dp cps sl h1 h2 h3
      rw [fetch_paged_go]
      by_cases hterm : 400 ≤ (os i).status ∧ (os i).status < 500
      · exact ⟨none, none, i + 1, sl, by simp [hterm], by omega, by omega⟩
      · by_cases htrans : (os i).maxPages < 1
        · by_cases hne : ne ≥ ERROR_RETRIES
          · exact ⟨some dp, some cps, i + 1, sl,
              by simp [hterm, htrans, hne], by omega, by omega⟩
          · obtain ⟨d, c, calls, sl2, heq, hc, hs⟩ :=
              ih (i + 1) cp (ne + 1) dp cps (sl ++ [ne + 1]) h1 (by omega)
                (by omega)
            refine ⟨d, c, calls, sl2, ?_, by omega, ?_⟩
            · simp only [hterm, if_false, htrans, if_pos, hne, ite_false]
              exact heq
            · simp only [List.length_append, List.length_singleton] at hs
              omega
        · by_cases hlast : (cp : Int) ≥ (os i).maxPages
          · exact ⟨some (appendTruthy dp (os i).data),
              some (appendTruthy cps (os i).cache), i + 1, sl,
              by simp [hterm, htrans, hlast], by omega, by omega⟩
          · have hcpM : cp < M := by
              have hBi := hB i
              omega
            obtain ⟨d, c, calls, sl2, heq, hc, hs⟩ :=
              ih (i + 1) (cp + 1) ne (appendTruthy dp (os i).data)
                (appendTruthy cps (os i).cache) sl (by omega) h2 (by omega)
            refine ⟨d, c, calls, sl2, ?_, by omega, hs⟩
            simp only [hterm, if_false, htrans, ite_false, hlast]
            exact heq

/-- Claim C3 counterexample: an oracle whose first page reports a total
of 2 pages but whose second page reports 3.  The loop re-reads the page
count on every iteration, so it performs 3 page iterations (3 calls, all
successful), exceeding the total-page-count of 2 reported by the first
page fetched. -/
theorem C3_first_page_count_exceeded :
    fetch_paged
      (fun j => ({ maxPages := if j = 0 then 2 else 3, data := some [5],
                   cache := none, status := 200 } : PageResult Int)) 10 =
      some (some [[5], [5], [5]], some [], 3, []) ∧ 2 < 3 := by
  constructor
  · rfl
  · omega

/-- Claim C3 (amended): `__fetch_paged` terminates whenever the reported
total-page-counts are bounded by some `M`: with fuel `M + 4` the loop
returns, makes at most `M + 4` calls, and sleeps for at most 3 back-offs
in total — the retry budget is cumulative across the whole fetch, not
per page.  A terminal client-error (status 400-499) response ends the
loop at once with the `(None, None)` result, with no retry of that page.
The per-iteration page bound is re-read from each successful response
(not fixed by the first page), so the iteration count is bounded by the
supremum `M` of the reported counts plus the retry budget, not by the
first page's count. -/
theorem C3_fetch_paged_terminates {β : Type} (os : Nat → PageResult β)
    (M : Nat) (hB : ∀ j, (os j).maxPages ≤ (M : Int)) :
    (∃ d c calls sl,
      fetch_paged os (M + ERROR_RETRIES + 1) = some (d, c, calls, sl) ∧
      calls ≤ M + ERROR_RETRIES + 1 ∧ sl.length ≤ ERROR_RETRIES) ∧
    (∀ (fuel2 i2 cp2 ne2 : Nat) d2 c2 sl2,
      400 ≤ (os i2).status → (os i2).status < 500 →
      fetch_paged_go os (fuel2 + 1) i2 cp2 ne2 d2 c2 sl2 =
        some (none, none, i2 + 1, sl2)) := by
  constructor
  · obtain ⟨d, c, calls, sl, heq, hc, hs⟩ :=
      fetch_paged_go_terminates os M hB (M + ERROR_RETRIES + 1) 0 1 0 [] [] []
        (by omega) (by omega) (by simp only [ERROR_RETRIES]; omega)
    exact ⟨d, c, calls, sl, heq, by omega, by simpa using hs⟩
  · intro fuel2 i2 cp2 ne2 d2 c2 sl2 h1 h2
    rw [fetch_paged_go]
    simp only [h1, h2, and_self, if_true, if_pos]

theorem C3_fetch_paged_terminates_witness :
    ∃ d c calls sl,
      fetch_paged
        (fun _ => ({ maxPages := 2, data := some [3], cache := none,
                     status := 200 } : PageResult Int)) 6 =
        some (d, c, calls, sl) ∧ calls ≤ 6 ∧ sl.length ≤ ERROR_RETRIES := by
  have h := (C3_fetch_paged_terminates
    (fun _ => ({ maxPages := 2, data := some [3], cache := none,
                 status := 200 } : PageResult Int)) 2
    (fun j => by norm_num)).1
  simpa [ERROR_RETRIES] using h

theorem fetch_struct_eq_type_order_page (accessToken : String)
    (needsAuth : Bool) (p : Page) (t : Transport (List EsiOrder)) :
    fetch_struct_order_page accessToken needsAuth p t =
      fetch_type_order_page accessToken needsAuth p t := rfl

theorem fetch_type_order_page_fail (accessToken : String) (needsAuth : Bool)
    (p : Page) (r : HttpResponse (List EsiOrder))
    (hauth : (needsAuth && (accessToken == "")) = false)
    (h4 : 400 ≤ r.status_code) :
    fetch_type_order_page accessToken needsAuth p (Transport.response r) =
      Except.ok ({ p with etag := "" }, -1, none, p.cache, r.status_code) := by
  rw [fetch_type_order_page, fetch_api_page, fetch_api]
  simp [hauth, h4]

theorem fetch_type_order_page_304 (accessToken : String) (needsAuth : Bool)
    (p : Page) (r : HttpResponse (List EsiOrder))
    (hauth : (needsAuth && (accessToken == "")) = false)
    (h : r.status_code = 304) :
    fetch_type_order_page accessToken needsAuth p (Transport.response r) =
      Except.ok ({ p with etag := r.etagHeader.getD "" },
        r.xPagesHeader.getD 1, none, p.cache, r.status_code) := by
  have h4 : ¬(r.status_code ≥ 400) := by omega
  rw [fetch_type_order_page, fetch_api_page, fetch_api]
  simp [hauth, h4, h]

theorem fetch_type_order_page_changed (accessToken : String)
    (needsAuth : Bool) (p : Page) (r : HttpResponse (List EsiOrder))
    (hauth : (needsAuth && (accessToken == "")) = false)
    (h4 : r.status_code < 400) (h304 : r.status_code ≠ 304)
    (hbody : r.body ≠ []) :
    fetch_type_order_page accessToken needsAuth p (Transport.response r) =
      Except.ok ({ p with
          etag := r.etagHeader.getD ""
          cache := some (r.body.map (fun o => o.order_id)) },
        r.xPagesHeader.getD 1, some r.body, none, r.status_code) := by
  have h4' : ¬(r.status_code ≥ 400) := by omega
  have hb : r.body.isEmpty = false := by
    cases hB : r.body with
    | nil => exact absurd hB hbody
    | cons a l => rfl
  rw [fetch_type_order_page, fetch_api_page, fetch_api]
  simp [hauth, h4', h304, hb]

theorem fetch_type_order_page_changed_empty (accessToken : String)
    (needsAuth : Bool) (p : Page) (r : HttpResponse (List EsiOrder))
    (hauth : (needsAuth && (accessToken == "")) = false)
    (h4 : r.status_code < 400) (h304 : r.status_code ≠ 304)
    (hbody : r.body = []) :
    fetch_type_order_page accessToken needsAuth p (Transport.response r) =
      Except.ok ({ p with etag := r.etagHeader.getD "" },
        r.xPagesHeader.getD 1, some [], p.cache, r.status_code) := by
  have h4' : ¬(r.status_code ≥ 400) := by omega
  rw [fetch_type_order_page, fetch_api_page, fetch_api]
  simp [hauth, h4', h304, hbody]

/-- The `Page` state after a sequence of successful HTTP exchanges
against one order page through `__fetch_type_order_page` (needs_auth is
`False` on this path, so no exchange can raise). -/
def order_page_run (accessToken : String) (page : Page)
    (rs : List (HttpResponse (List EsiOrder))) : Page :=
  rs.foldl
    (fun p r =>
      match fetch_type_order_page accessToken false p (Transport.response r) with
      | .ok out => out.1
      | .error _ => p)
    page

/-- Spec-side recap for claim C1: the order-ID list of the most recent
changed (non-304, non-failure) success carrying a non-empty payload, or
the initial cached list when there has been none. -/
def lastChangedIds (init : Option (List Int))
    (rs : List (HttpResponse (List EsiOrder))) : Option (List Int) :=
  rs.foldl
    (fun acc r =>
      if r.status_code < 400 ∧ r.status_code ≠ 304 ∧ r.body ≠ [] then
        some (r.body.map (fun o => o.order_id))
      else acc)
    init

theorem order_page_step_cache (accessToken : String) (p : Page)
    (r : HttpResponse (List EsiOrder)) :
    (order_page_run accessToken p [r]).cache =
      if r.status_code < 400 ∧ r.status_code ≠ 304 ∧ r.body ≠ [] then
        some (r.body.map (fun o => o.order_id))
      else p.cache := by
  have hauth : (false && (accessToken == "")) = false := by simp
  rw [order_page_run]
  simp only [List.foldl_cons, List.foldl_nil]
  by_cases h4 : 400 ≤ r.status_code
  · rw [fetch_type_order_page_fail accessToken false p r hauth h4]
    have hc : ¬(r.status_code < 400 ∧ r.status_code ≠ 304 ∧ r.body ≠ []) :=
      fun h => absurd h4 (by omega)
    simp [hc]
  · by_cases h304 : r.status_code = 304
    · rw [fetch_type_order_page_304 accessToken false p r hauth h304]
      have hc : ¬(r.status_code < 400 ∧ r.status_code ≠ 304 ∧ r.body ≠ []) :=
        fun h => h.2.1 h304
      simp [hc]
    · by_cases hbody : r.body = []
      · rw [fetch_type_order_page_changed_empty accessToken false p r hauth
          (by omega) h304 hbody]
        have hc : ¬(r.status_code < 400 ∧ r.status_code ≠ 304 ∧ r.body ≠ []) :=
          fun h => h.2.2 hbody
        simp [hc]
      · rw [fetch_type_order_page_changed accessToken false p r hauth
          (by omega) h304 hbody]
        have hc : r.status_code < 400 ∧ r.status_code ≠ 304 ∧ r.body ≠ [] :=
          ⟨by omega, h304, hbody⟩
        simp [hc]

theorem lastChangedIds_cons (init : Option (List Int))
    (r : HttpResponse (List EsiOrder))
    (rest : List (HttpResponse (List EsiOrder))) :
    lastChangedIds init (r :: rest) =
      lastChangedIds
        (if r.status_code < 400 ∧ r.status_code ≠ 304 ∧ r.body ≠ [] then
          some (r.body.map (fun o => o.order_id))
        else init) rest := rfl

theorem order_page_run_cache (accessToken : String) (p : Page)
    (rs : List (HttpResponse (List EsiOrder))) :
    (order_page_run accessToken p rs).cache = lastChangedIds p.cache rs := by
  induction rs generalizing p with
  | nil => rfl
  | cons r rest ih =>
      have hstep : order_page_run accessToken p (r :: rest) =
          order_page_run accessToken (order_page_run accessToken p [r]) rest := by
        simp [order_page_run]
      rw [hstep, ih, order_page_step_cache accessToken p r,
        lastChangedIds_cons]

/-- Claim C1 counterexample: a changed success whose payload is the
empty order list does not replace the page's cached ID list with the
(empty) set of order IDs present in the payload.  After a changed fetch
caching `[11, 12]`, a second changed success (status 200) with an empty
body leaves `cache = some [11, 12]` and even forwards `[11, 12]` as the
cache list, where the claim as stated requires the cache to become the
payload's ID list `[]`. -/
theorem C1_changed_empty_payload_not_cached :
    fetch_type_order_page "" false
        (order_page_run "" { etag := "", number := 1, cache := none }
          [{ status_code := 200, etagHeader := some "e1", xPagesHeader := some 1,
             body := [{ order_id := 11 }, { order_id := 12 }] }])
        (Transport.response
          { status_code := 200, etagHeader := some "e2", xPagesHeader := some 1,
            body := [] }) =
      Except.ok ({ etag := "e2", number := 1, cache := some [11, 12] }, 1,
        some [], some [11, 12], 200) ∧
    some [11, 12] ≠ (some ([] : List Int)) := by
  exact ⟨rfl, by simp⟩

/-- Claim C1 (amended): over any sequence of successful exchanges for
one order page, the page's cached ID list equals the order IDs of the
most recent changed success with a **non-empty** payload (or the initial
cache when there was none); an unchanged (304) fetch forwards exactly
that list and leaves it in place; and a changed success with a non-empty
payload yields the parsed payload, replaces the cached list with exactly
the payload's order IDs, and forwards no cache list.  (A changed success
with an empty payload leaves the cached list untouched; see the
counterexample and claim C9.) -/
theorem C1_unchanged_returns_last_change (accessToken : String) (p0 : Page)
    (rs : List (HttpResponse (List EsiOrder)))
    (r : HttpResponse (List EsiOrder)) :
    (order_page_run accessToken p0 rs).cache = lastChangedIds p0.cache rs ∧
    (r.status_code = 304 →
      fetch_type_order_page accessToken false
          (order_page_run accessToken p0 rs) (Transport.response r) =
        Except.ok ({ order_page_run accessToken p0 rs with
            etag := r.etagHeader.getD "" },
          r.xPagesHeader.getD 1, none, lastChangedIds p0.cache rs,
          r.status_code)) ∧
    (r.status_code < 400 → r.status_code ≠ 304 → r.body ≠ [] →
      fetch_type_order_page accessToken false
          (order_page_run accessToken p0 rs) (Transport.response r) =
        Except.ok ({ order_page_run accessToken p0 rs with
            etag := r.etagHeader.getD ""
            cache := some (r.body.map (fun o => o.order_id)) },
          r.xPagesHeader.getD 1, some r.body, none, r.status_code)) := by
  have hauth : (false && (accessToken == "")) = false := by simp
  refine ⟨order_page_run_cache accessToken p0 rs, ?_, ?_⟩
  · intro h304
    rw [fetch_type_order_page_304 accessToken false _ r hauth h304]
    simp [order_page_run_cache accessToken p0 rs]
  · intro h4 h304 hbody
    rw [fetch_type_order_page_changed accessToken false _ r hauth h4 h304
      hbody]

theorem C1_unchanged_returns_last_change_witness :
    fetch_type_order_page "" false
        (order_page_run "" { etag := "", number := 1, cache := none }
          [{ status_code := 200, etagHeader := some "e1", xPagesHeader := some 1,
             body := [{ order_id := 11 }, { order_id := 12 }] }])
        (Transport.response
          { status_code := 304, etagHeader := some "e3", xPagesHeader := some 1,
            body := [] }) =
      Except.ok ({ etag := "e3", number := 1, cache := some [11, 12] }, 1,
        none, some [11, 12], 304) := by
  have h := (C1_unchanged_returns_last_change ""
    { etag := "", number := 1, cache := none }
    [{ status_code := 200, etagHeader := some "e1", xPagesHeader := some 1,
       body := [{ order_id := 11 }, { order_id := 12 }] }]
    { status_code := 304, etagHeader := some "e3", xPagesHeader := some 1,
      body := [] }).2.1 rfl
  exact h

/-- Truthiness normalisation of an optional list: `None` and the empty
list are both falsy to the paging loop's `if data:` / `if cache:`
guards. -/
def truthyNorm (x : Option (List γ)) : Option (List γ) :=
  match x with
  | some l => if l.isEmpty then none else some l
  | none => none

/-- Two page-fetch results that `__fetch_paged` cannot tell apart: same
reported page count, same terminal-error classification, and data/cache
payloads equal up to truthiness (`None` vs the empty list). -/
def resultObsEq {β : Type} (r r' : PageResult β) : Prop :=
  r.maxPages = r'.maxPages ∧
  ((400 ≤ r.status ∧ r.status < 500) ↔ (400 ≤ r'.status ∧ r'.status < 500)) ∧
  truthyNorm r.data = truthyNorm r'.data ∧
  truthyNorm r.cache = truthyNorm r'.cache

theorem appendTruthy_norm {γ : Type} (acc : List (List γ))
    (x : Option (List γ)) :
    appendTruthy acc x = appendTruthy acc (truthyNorm x) := by
  cases x with
  | none => rfl
  | some l =>
      cases hl : l.isEmpty with
      | true => simp [appendTruthy, truthyNorm, hl]
      | false => simp [appendTruthy, truthyNorm, hl]

theorem appendTruthy_congr {γ : Type} (acc : List (List γ))
    {x y : Option (List γ)} (h : truthyNorm x = truthyNorm y) :
    appendTruthy acc x = appendTruthy acc y := by
  rw [appendTruthy_norm acc x, appendTruthy_norm acc y, h]

theorem fetch_paged_go_obs_eq {β : Type} (os os2 : Nat → PageResult β)
    (hobs : ∀ j, resultObsEq (os j) (os2 j)) (fuel : Nat) :
    ∀ i cp ne dp cps sl,
      fetch_paged_go os fuel i cp ne dp cps sl =
        fetch_paged_go os2 fuel i cp ne dp cps sl := by
  induction fuel with
  | zero => intro i cp ne dp cps sl; rfl
  | succ fuel ih =>
      intro i cp ne dp cps sl
      obtain ⟨hmp, hterm, hdata, hcache⟩ := hobs i
      rw [fetch_paged_go, fetch_paged_go]
      by_cases ht : 400 ≤ (os i).status ∧ (os i).status < 500
      · simp [ht, hterm.mp ht]
      · have ht2 : ¬(400 ≤ (os2 i).status ∧ (os2 i).status < 500) :=
          fun h => ht (hterm.mpr h)
        by_cases htr : (os i).maxPages < 1
        · have htr2 : (os2 i).maxPages < 1 := hmp ▸ htr
          by_cases hne : ne ≥ ERROR_RETRIES
          · simp [ht, ht2, htr, htr2, hne]
          · simp only [ht, if_false, ht2, htr, if_pos, htr2, hne, ite_false]
            exact ih (i + 1) cp (ne + 1) dp cps (sl ++ [ne + 1])
        · have htr2 : ¬((os2 i).maxPages < 1) := hmp ▸ htr
          have hdp : appendTruthy dp (os i).data = appendTruthy dp (os2 i).data :=
            appendTruthy_congr dp hdata
          have hcp : appendTruthy cps (os i).cache = appendTruthy cps (os2 i).cache :=
            appendTruthy_congr cps hcache
          by_cases hlast : (cp : Int) ≥ (os i).maxPages
          · have hlast2 : (cp : Int) ≥ (os2 i).maxPages := hmp ▸ hlast
            simp [ht, ht2, htr, htr2, hlast, hlast2, hdp, hcp]
          · have hlast2 : ¬((cp : Int) ≥ (os2 i).maxPages) := hmp ▸ hlast
            simp only [ht, if_false, ht2, htr, ite_false, htr2, hlast,
              hlast2, hdp, hcp]
            exact ih (i + 1) (cp + 1) ne (appendTruthy dp (os2 i).data)
              (appendTruthy cps (os2 i).cache) sl

/-- Claim C9: a successful changed (non-304) order-page fetch whose
payload is the empty list does not clear or replace the page's cached ID
list; both `__fetch_type_order_page` and `__fetch_struct_order_page`
forward the previously cached list as the cache/refresh list (first
conjunct), a changed-but-empty result is observation-equivalent to an
unchanged result with the same page count and cache (third conjunct),
and `__fetch_paged` maps observation-equivalent call sequences to
identical `(data_pages, cache_pages)` outcomes, so at the
`fetch_type_orders` / `fetch_structure_orders` interface the two are
indistinguishable and the stale list still reaches the TTL-refresh path
(second conjunct). -/
theorem C9_changed_empty_page_indistinguishable {β : Type}
    (accessToken : String) (needsAuth : Bool) (p : Page)
    (r : HttpResponse (List EsiOrder))
    (hauth : (needsAuth && (accessToken == "")) = false)
    (os os2 : Nat → PageResult β)
    (hobs : ∀ j, resultObsEq (os j) (os2 j)) :
    (r.status_code < 400 → r.status_code ≠ 304 → r.body = [] →
      fetch_type_order_page accessToken needsAuth p (Transport.response r) =
        Except.ok ({ p with etag := r.etagHeader.getD "" },
          r.xPagesHeader.getD 1, some [], p.cache, r.status_code) ∧
      fetch_struct_order_page accessToken needsAuth p (Transport.response r) =
        Except.ok ({ p with etag := r.etagHeader.getD "" },
          r.xPagesHeader.getD 1, some [], p.cache, r.status_code)) ∧
    (∀ fuel i cp ne dp cps sl,
      fetch_paged_go os fuel i cp ne dp cps sl =
        fetch_paged_go os2 fuel i cp ne dp cps sl) ∧
    (∀ (m : Int) (cache : Option (List Int)) (s s2 : Nat),
      ¬(400 ≤ s ∧ s < 500) → ¬(400 ≤ s2 ∧ s2 < 500) →
      resultObsEq
        ({ maxPages := m, data := some [], cache := cache, status := s } :
          PageResult β)
        { maxPages := m, data := none, cache := cache, status := s2 }) := by
  refine ⟨?_, fetch_paged_go_obs_eq os os2 hobs, ?_⟩
  · intro h4 h304 hbody
    constructor
    · exact fetch_type_order_page_changed_empty accessToken needsAuth p r
        hauth h4 h304 hbody
    · rw [fetch_struct_eq_type_order_page]
      exact fetch_type_order_page_changed_empty accessToken needsAuth p r
        hauth h4 h304 hbody
  · intro m cache s s2 hs hs2
    exact ⟨rfl, by tauto, rfl, rfl⟩

theorem C9_changed_empty_page_indistinguishable_witness :
    fetch_paged
      (fun _ => ({ maxPages := 1, data := some [], cache := some [9],
                   status := 200 } : PageResult Int)) 5 =
    fetch_paged
      (fun _ => ({ maxPages := 1, data := none, cache := some [9],
                   status := 304 } : PageResult Int)) 5 :=
  (C9_changed_empty_page_indistinguishable ""
    false { etag := "", number := 1, cache := none }
    { status_code := 200, etagHeader := none, xPagesHeader := some 1,
      body := [] }
    (by decide)
    (fun _ => ({ maxPages := 1, data := some [], cache := some [9],
                 status := 200 } : PageResult Int))
    (fun _ => ({ maxPages := 1, data := none, cache := some [9],
                 status := 304 } : PageResult Int))
    (fun j => ⟨rfl, by norm_num, rfl, rfl⟩)).2.1 5 0 1 0 [] [] []

theorem add_orders_cons (st : RedisState) (now region : Int)
    (o : MarketOrder) (rest : List MarketOrder) :
    add_orders st now region (o :: rest) =
      add_orders (addOrderStep st now region o) now region rest := rfl

theorem add_orders_kv_notmem (now region : Int) :
    ∀ (os : List MarketOrder) (st : RedisState) (k : Int),
      (∀ o ∈ os, o.order_id ≠ k) →
      (add_orders st now region os).kv k = st.kv k := by
  intro os
  induction os with
  | nil => intro st k _; rfl
  | cons a rest ih =>
      intro st k h
      rw [add_orders_cons, ih _ k (fun o ho => h o (by simp [ho]))]
      simp only [addOrderStep]
      rw [if_neg (fun he => h a (by simp) he.symm)]

theorem add_orders_kv_mem (now region : Int) :
    ∀ (os : List MarketOrder), (os.map (fun o => o.order_id)).Nodup →
      ∀ o ∈ os, ∀ st : RedisState,
        (add_orders st now region os).kv o.order_id =
          some (encode_order o, now + MARKET_ORDER_TTL) := by
  intro os
  induction os with
  | nil => intro _ o ho; cases ho
  | cons a rest ih =>
      intro hnd o ho st
      rw [List.map_cons, List.nodup_cons] at hnd
      rw [add_orders_cons]
      rcases List.mem_cons.mp ho with rfl | hmem
      · rw [add_orders_kv_notmem now region rest _ o.order_id
          (fun x hx he => hnd.1 (he ▸ List.mem_map_of_mem _ hx))]
        simp [addOrderStep]
      · exact ih hnd.2 o hmem _

theorem add_orders_typeSets (now region : Int) :
    ∀ (os : List MarketOrder) (st : RedisState) (r' t' : Int),
      (add_orders st now region os).typeSets (r', t') =
        if r' = region then
          ((os.filter (fun o => o.type_id = t')).map
            (fun o => o.order_id)).foldl sadd (st.typeSets (r', t'))
        else st.typeSets (r', t') := by
  intro os
  induction os with
  | nil =>
      intro st r' t'
      by_cases hr : r' = region <;> simp [add_orders, hr]
  | cons a rest ih =>
      intro st r' t'
      rw [add_orders_cons, ih]
      by_cases hr : r' = region
      · subst hr
        by_cases ht : a.type_id = t'
        · have hstep : (addOrderStep st now r' a).typeSets (r', t') =
              sadd (st.typeSets (r', t')) a.order_id := by
            simp [addOrderStep, ht]
          rw [hstep]
          simp [List.filter_cons, ht]
        · have hstep : (addOrderStep st now r' a).typeSets (r', t') =
              st.typeSets (r', t') := by
            simp only [addOrderStep]
            rw [if_neg (fun he => ht (Prod.mk.injEq .. ▸ he).2.symm)]
          rw [hstep]
          have hfil : (a :: rest).filter (fun o => o.type_id = t') =
              rest.filter (fun o => o.type_id = t') := by
            simp [List.filter_cons, ht]
          simp [hfil]
      · have hstep : (addOrderStep st now region a).typeSets (r', t') =
            st.typeSets (r', t') := by
          simp only [addOrderStep]
          rw [if_neg (fun he => hr (Prod.mk.injEq .. ▸ he).1)]
        rw [hstep]
        simp [hr]

theorem foldl_sadd_nodup :
    ∀ (ids : List Int) (s : List Int),
      (∀ x ∈ ids, x ∉ s) → ids.Nodup → ids.foldl sadd s = s ++ ids := by
  intro ids
  induction ids with
  | nil => intro s _ _; simp
  | cons a rest ih =>
      intro s hdisj hnd
      rw [List.nodup_cons] at hnd
      simp only [List.foldl_cons, sadd]
      rw [if_neg (hdisj a (by simp))]
      rw [ih (s ++ [a]) ?_ hnd.2]
      · simp
      · intro x hx
        simp only [List.mem_append, List.mem_singleton]
        rintro (h | h)
        · exact hdisj x (by simp [hx]) h
        · exact hnd.1 (h ▸ hx)

theorem get_orders_scan_alive (st : RedisState) (now : Int) (region : Int) :
    ∀ (os2 : List MarketOrder),
      (∀ o ∈ os2, redisGet st now o.order_id =
        some (encode_order o, now + MARKET_ORDER_TTL)) →
      get_orders_scan st now region none (os2.map (fun o => o.order_id)) =
        (os2.map (fun o =>
          ({ fields := (encode_order o).fields,
             expiry := (encode_order o).expiry,
             age := 0, rid := region } : OrderResult)), []) := by
  intro os2
  induction os2 with
  | nil => intro _; rfl
  | cons o rest ih =>
      intro h
      simp only [List.map_cons, get_orders_scan]
      rw [h o (by simp), ih (fun x hx => h x (by simp [hx]))]
      have hage : MARKET_ORDER_TTL - (now + MARKET_ORDER_TTL - now) = (0 : Int) := by
        ring
      simp [systemMatches, hage]

theorem get_orders_scan_dead (st : RedisState) (now : Int) (region : Int)
    (system? : Option Int) :
    ∀ ids : List Int, (∀ oid ∈ ids, redisGet st now oid = none) →
      get_orders_scan st now region system? ids = ([], ids) := by
  intro ids
  induction ids with
  | nil => intro _; rfl
  | cons oid rest ih =>
      intro h
      simp only [get_orders_scan]
      rw [h oid (by simp), ih (fun x hx => h x (by simp [hx]))]

/-- Claim C2: from an empty store, `add_orders(region, orders)` writes
every order under its order-ID key with expiry `now + 1200` and records
its ID in the `(region, type)` membership set; an immediate
`get_orders(region, type)` returns exactly the submitted orders of that
type, in submission order, each decoded with `age = 0`, and prunes
nothing; once the TTL has elapsed with no intervening refresh, the same
query returns nothing and empties the membership set as a side
effect. -/
theorem C2_add_get_orders_ttl (os : List MarketOrder) (now : Int)
    (region t : Int) (hnd : (os.map (fun o => o.order_id)).Nodup) :
    (∀ o ∈ os, (add_orders RedisState.empty now region os).kv o.order_id =
      some (encode_order o, now + MARKET_ORDER_TTL)) ∧
    (add_orders RedisState.empty now region os).typeSets (region, t) =
      (os.filter (fun o => o.type_id = t)).map (fun o => o.order_id) ∧
    (get_orders (add_orders RedisState.empty now region os) now region t
        none).1 =
      (os.filter (fun o => o.type_id = t)).map (fun o =>
        ({ fields := (encode_order o).fields,
           expiry := (encode_order o).expiry,
           age := 0, rid := region } : OrderResult)) ∧
    (∀ rt, ((get_orders (add_orders RedisState.empty now region os) now
        region t none).2).typeSets rt =
      (add_orders RedisState.empty now region os).typeSets rt) ∧
    (get_orders (add_orders RedisState.empty now region os)
        (now + MARKET_ORDER_TTL) region t none).1 = [] ∧
    ((get_orders (add_orders RedisState.empty now region os)
        (now + MARKET_ORDER_TTL) region t none).2).typeSets (region, t) =
      [] := by
  have hkv : ∀ o ∈ os, (add_orders RedisState.empty now region os).kv o.order_id =
      some (encode_order o, now + MARKET_ORDER_TTL) :=
    fun o ho => add_orders_kv_mem now region os hnd o ho RedisState.empty
  have hset : (add_orders RedisState.empty now region os).typeSets (region, t) =
      (os.filter (fun o => o.type_id = t)).map (fun o => o.order_id) := by
    rw [add_orders_typeSets now region os RedisState.empty region t, if_pos rfl]
    have hnd2 : ((os.filter (fun o => o.type_id = t)).map
        (fun o => o.order_id)).Nodup :=
      List.Nodup.sublist (List.Sublist.map _ (List.filter_sublist os)) hnd
    have := foldl_sadd_nodup
      ((os.filter (fun o => o.type_id = t)).map (fun o => o.order_id))
      (RedisState.empty.typeSets (region, t)) (by intro x _; simp [RedisState.empty])
      hnd2
    simpa [RedisState.empty] using this
  have halive : ∀ o ∈ os.filter (fun o => o.type_id = t),
      redisGet (add_orders RedisState.empty now region os) now o.order_id =
        some (encode_order o, now + MARKET_ORDER_TTL) := by
    intro o ho
    have hmem := List.mem_of_mem_filter ho
    have hlt : now < now + MARKET_ORDER_TTL := by
      simp only [MARKET_ORDER_TTL]; omega
    rw [redisGet, hkv o hmem]
    simp [hlt]
  have hdead : ∀ oid ∈ (add_orders RedisState.empty now region os).typeSets
      (region, t),
      redisGet (add_orders RedisState.empty now region os)
        (now + MARKET_ORDER_TTL) oid = none := by
    intro oid hoid
    rw [hset] at hoid
    obtain ⟨o, ho, rfl⟩ := List.mem_map.mp hoid
    have hmem := List.mem_of_mem_filter ho
    have hnlt : ¬(now + MARKET_ORDER_TTL < now + MARKET_ORDER_TTL) := by omega
    rw [redisGet, hkv o hmem]
    simp [hnlt]
  have hscan1 : get_orders_scan (add_orders RedisState.empty now region os)
      now region none
      ((add_orders RedisState.empty now region os).typeSets (region, t)) =
      ((os.filter (fun o => o.type_id = t)).map (fun o =>
        ({ fields := (encode_order o).fields,
           expiry := (encode_order o).expiry,
           age := 0, rid := region } : OrderResult)), []) := by
    rw [hset]
    exact get_orders_scan_alive _ now region _ halive
  have hscan2 : get_orders_scan (add_orders RedisState.empty now region os)
      (now + MARKET_ORDER_TTL) region none
      ((add_orders RedisState.empty now region os).typeSets (region, t)) =
      ([], (add_orders RedisState.empty now region os).typeSets (region, t)) :=
    get_orders_scan_dead _ _ region none _ hdead
  refine ⟨hkv, hset, ?_, ?_, ?_, ?_⟩
  · rw [get_orders]
    simp only [hscan1]
  · intro rt
    rw [get_orders]
    simp only [hscan1]
    by_cases hrt : rt = (region, t)
    · simp [hrt]
    · simp [hrt]
  · rw [get_orders]
    simp only [hscan2]
  · rw [get_orders]
    simp only [hscan2, if_pos rfl, if_true, eq_self_iff_true]
    rw [List.filter_eq_nil_iff]
    intro a ha
    simp only [Bool.not_eq_true', Bool.not_eq_false]
    exact List.elem_eq_true_of_mem ha

theorem C2_add_get_orders_ttl_witness :
    (get_orders
      (add_orders RedisState.empty 1700000000 10000002
        [{ order_id := 5001, type_id := 34, system_id := 30000142,
           location_id := 60003760, is_buy_order := false, min_volume := 1,
           volume_total := 100, volume_remain := 40, price := 500,
           range := "region", issuedEpoch := 1699990000, duration := 90 }])
      1700000000 10000002 34 none).1 =
      [{ fields :=
          { sid := 30000142, lid := 60003760, buy := 0, minvol := 1,
            totvol := 100, remvol := 40, price := 500, range := "region" }
         expiry := 1699990000 + 86400 * 90
         age := 0
         rid := 10000002 }] := by
  have h := (C2_add_get_orders_ttl
    [{ order_id := 5001, type_id := 34, system_id := 30000142,
       location_id := 60003760, is_buy_order := false, min_volume := 1,
       volume_total := 100, volume_remain := 40, price := 500,
       range := "region", issuedEpoch := 1699990000, duration := 90 }]
    1700000000 10000002 34 (by simp)).2.2.1
  rw [h]
  rfl

theorem refresh_orders_cons (st : RedisState) (now a : Int)
    (rest : List Int) :
    refresh_orders st now (a :: rest) =
      refresh_orders (refreshOrderStep st now a) now rest := rfl

theorem refreshOrderStep_typeSets (st : RedisState) (now oid : Int) :
    (refreshOrderStep st now oid).typeSets = st.typeSets := by
  rcases hg : redisGet st now oid with _ | ⟨v, e⟩ <;>
    simp [refreshOrderStep, hg]

theorem refresh_orders_typeSets (now : Int) :
    ∀ (ids : List Int) (st : RedisState),
      (refresh_orders st now ids).typeSets = st.typeSets := by
  intro ids
  induction ids with
  | nil => intro st; rfl
  | cons a rest ih =>
      intro st
      rw [refresh_orders_cons, ih, refreshOrderStep_typeSets]

theorem refreshOrderStep_kv_ne (st : RedisState) (now oid k : Int)
    (hk : k ≠ oid) : (refreshOrderStep st now oid).kv k = st.kv k := by
  rcases hg : redisGet st now oid with _ | ⟨v, e⟩ <;>
    simp [refreshOrderStep, hg, hk]

theorem refresh_orders_kv (now : Int) :
    ∀ (ids : List Int) (st : RedisState) (k : Int),
      (refresh_orders st now ids).kv k =
        if k ∈ ids then
          match redisGet st now k with
          | some (v, _) => some (v, now + MARKET_ORDER_TTL)
          | none => st.kv k
        else st.kv k := by
  intro ids
  induction ids with
  | nil => intro st k; simp [refresh_orders]
  | cons a rest ih =>
      intro st k
      rw [refresh_orders_cons, ih]
      by_cases hk : k = a
      · subst hk
        rcases hg : redisGet st now k with _ | ⟨v, e⟩
        · have hsame : refreshOrderStep st now k = st := by
            simp [refreshOrderStep, hg]
          rw [hsame, hg]
          by_cases hmem : k ∈ rest
          · rw [if_pos hmem, if_pos (by simp)]
          · rw [if_neg hmem, if_pos (by simp)]
        · have hlt : now < now + MARKET_ORDER_TTL := by
            simp only [MARKET_ORDER_TTL]; omega
          have hkv : (refreshOrderStep st now k).kv k =
              some (v, now + MARKET_ORDER_TTL) := by
            simp [refreshOrderStep, hg]
          have hget : redisGet (refreshOrderStep st now k) now k =
              some (v, now + MARKET_ORDER_TTL) := by
            simp [redisGet, hkv, hlt]
          by_cases hmem : k ∈ rest
          · rw [if_pos hmem, if_pos (by simp), hget]
          · rw [if_neg hmem, if_pos (by simp), hkv]
      · have hkv : (refreshOrderStep st now a).kv k = st.kv k :=
          refreshOrderStep_kv_ne st now a k hk
        have hget : redisGet (refreshOrderStep st now a) now k =
            redisGet st now k := by
          rw [redisGet, redisGet, hkv]
        by_cases hmem : k ∈ rest
        · rw [if_pos hmem, if_pos (by simp [hmem]), hget, hkv]
        · rw [if_neg hmem, if_neg (by simp [hmem, hk]), hkv]

theorem refresh_orders_get (st : RedisState) (now : Int) (ids : List Int)
    (k : Int) :
    redisGet (refresh_orders st now ids) now k =
      match redisGet st now k with
      | none => none
      | some (v, e) =>
          some (v, if k ∈ ids then now + MARKET_ORDER_TTL else e) := by
  rw [redisGet, refresh_orders_kv now ids st k]
  by_cases hmem : k ∈ ids
  · rcases hg : redisGet st now k with _ | ⟨v, e⟩
    · rcases hkv2 : st.kv k with _ | ⟨v2, e2⟩
      · simp [hmem]
      · have hdead : ¬(now < e2) := by
          intro hlt
          rw [redisGet, hkv2] at hg
          simp [hlt] at hg
        simp [hmem, hdead]
    · have hlt : now < now + MARKET_ORDER_TTL := by
        simp only [MARKET_ORDER_TTL]; omega
      simp [hmem, hlt]
  · rw [if_neg hmem, ← redisGet]
    rcases hg : redisGet st now k with _ | ⟨v, e⟩
    · rfl
    · simp [hmem]

theorem refresh_orders_get_fst (st : RedisState) (now : Int)
    (ids : List Int) (k : Int) :
    (redisGet (refresh_orders st now ids) now k).map Prod.fst =
      (redisGet st now k).map Prod.fst := by
  rw [refresh_orders_get]
  rcases redisGet st now k with _ | ⟨v, e⟩ <;> simp

theorem get_orders_scan_proj (stA stB : RedisState) (now : Int)
    (region : Int) (system? : Option Int) :
    ∀ ids : List Int,
      (∀ k ∈ ids, (redisGet stB now k).map Prod.fst =
        (redisGet stA now k).map Prod.fst) →
      ((get_orders_scan stB now region system? ids).1.map
          (fun o => (o.fields, o.expiry, o.rid)) =
        (get_orders_scan stA now region system? ids).1.map
          (fun o => (o.fields, o.expiry, o.rid))) ∧
      (get_orders_scan stB now region system? ids).2 =
        (get_orders_scan stA now region system? ids).2 := by
  intro ids
  induction ids with
  | nil => intro _; exact ⟨rfl, rfl⟩
  | cons oid rest ih =>
      intro h
      obtain ⟨ih1, ih2⟩ := ih (fun k hk => h k (by simp [hk]))
      have hk := h oid (by simp)
      simp only [get_orders_scan]
      rcases hgA : redisGet stA now oid with _ | ⟨v, e⟩
      · rw [hgA] at hk
        rcases hgB : redisGet stB now oid with _ | ⟨v2, e2⟩
        · simp [ih1, ih2]
        · rw [hgB] at hk
          exact absurd hk (by simp)
      · rw [hgA] at hk
        rcases hgB : redisGet stB now oid with _ | ⟨v2, e2⟩
        · rw [hgB] at hk
          exact absurd hk (by simp)
        · rw [hgB] at hk
          have hv : v2 = v := by simpa using hk
          rw [hv]
          by_cases hsm : systemMatches system? v.fields.sid = true
          · simp [hsm, ih1, ih2]
          · simp [hsm, ih1, ih2]

/-- Claim C6: `refresh_orders(order_ids)` re-applies the 1200-second
TTL to each listed, live order key without altering any payload field
and without creating any key absent from the store: membership sets are
untouched, unlisted keys are untouched, absent keys stay absent, each
listed live key keeps its value with expiry re-based to `now + 1200`,
and a `get_orders` call before and one after the refresh observe
identical decoded order fields (payload, expiry, region) for every
surviving order — only TTL/age can differ — with identical pruning. -/
theorem C6_refresh_orders_frame (st : RedisState) (now : Int)
    (ids : List Int) (region t : Int) (system? : Option Int) :
    (∀ rt, (refresh_orders st now ids).typeSets rt = st.typeSets rt) ∧
    (∀ k, k ∉ ids → (refresh_orders st now ids).kv k = st.kv k) ∧
    (∀ k, st.kv k = none → (refresh_orders st now ids).kv k = none) ∧
    (∀ k v e, k ∈ ids → redisGet st now k = some (v, e) →
      (refresh_orders st now ids).kv k = some (v, now + MARKET_ORDER_TTL)) ∧
    ((get_orders (refresh_orders st now ids) now region t system?).1.map
        (fun o => (o.fields, o.expiry, o.rid)) =
      (get_orders st now region t system?).1.map
        (fun o => (o.fields, o.expiry, o.rid))) ∧
    (∀ rt,
      ((get_orders (refresh_orders st now ids) now region t
        system?).2).typeSets rt =
      ((get_orders st now region t system?).2).typeSets rt) := by
  have hts : ∀ rt, (refresh_orders st now ids).typeSets rt =
      st.typeSets rt := fun rt => by rw [refresh_orders_typeSets]
  have hproj := get_orders_scan_proj st (refresh_orders st now ids) now
    region system? (st.typeSets (region, t))
    (fun k _ => refresh_orders_get_fst st now ids k)
  refine ⟨hts, ?_, ?_, ?_, ?_, ?_⟩
  · intro k hk
    rw [refresh_orders_kv now ids st k, if_neg hk]
  · intro k hk
    rw [refresh_orders_kv now ids st k]
    by_cases hmem : k ∈ ids
    · rw [if_pos hmem]
      rw [redisGet, hk]
    · rw [if_neg hmem]
      exact hk
  · intro k v e hmem hget
    rw [refresh_orders_kv now ids st k, if_pos hmem, hget]
  · rw [get_orders, get_orders]
    simp only [hts]
    exact hproj.1
  · intro rt
    rw [get_orders, get_orders]
    simp only [hts, hproj.2]

theorem C6_refresh_orders_frame_witness :
    (refresh_orders
      (add_orders RedisState.empty 100 7
        [{ order_id := 5001, type_id := 34, system_id := 31, location_id := 61,
           is_buy_order := true, min_volume := 1, volume_total := 10,
           volume_remain := 4, price := 9, range := "station",
           issuedEpoch := 0, duration := 1 }]) 150 [5001]).kv 5001 =
      some
        (encode_order
          { order_id := 5001, type_id := 34, system_id := 31, location_id := 61,
            is_buy_order := true, min_volume := 1, volume_total := 10,
            volume_remain := 4, price := 9, range := "station",
            issuedEpoch := 0, duration := 1 },
         150 + MARKET_ORDER_TTL) :=
  (C6_refresh_orders_frame
    (add_orders RedisState.empty 100 7
      [{ order_id := 5001, type_id := 34, system_id := 31, location_id := 61,
         is_buy_order := true, min_volume := 1, volume_total := 10,
         volume_remain := 4, price := 9, range := "station",
         issuedEpoch := 0, duration := 1 }]) 150 [5001] 7 34
    none).2.2.2.1 5001
    (encode_order
      { order_id := 5001, type_id := 34, system_id := 31, location_id := 61,
        is_buy_order := true, min_volume := 1, volume_total := 10,
        volume_remain := 4, price := 9, range := "station",
        issuedEpoch := 0, duration := 1 })
    (100 + MARKET_ORDER_TTL) (by simp) rfl

/-- The pool invariant: every initial task is accounted for; every
running task's already-enqueued children are accounted for (its
remaining children list is a suffix of its full children list); every
completed task's children are accounted for. -/
def PoolInv (children : Nat → List Nat) (init : List Nat)
    (s : PoolState) : Prop :=
  (∀ t ∈ init, inSystem s t) ∧
  (∀ p ∈ s.running, ∃ pre, children p.1 = pre ++ p.2 ∧
    ∀ c ∈ pre, inSystem s c) ∧
  (∀ t ∈ s.completed, ∀ c ∈ children t, inSystem s c)

theorem poolStep_inSystem {children : Nat → List Nat} {s s' : PoolState}
    (h : PoolStep children s s') (x : Nat) (hx : inSystem s x) :
    inSystem s' x := by
  cases h with
  | get t rest run comp =>
      rcases hx with hp | ⟨cs, hr⟩ | hc
      · rcases List.mem_cons.mp hp with rfl | hp'
        · exact Or.inr (Or.inl ⟨children x, by simp⟩)
        · exact Or.inl hp'
      · exact Or.inr (Or.inl ⟨cs, by simp [hr]⟩)
      · exact Or.inr (Or.inr hc)
  | enq t c cs pend run1 run2 comp =>
      rcases hx with hp | ⟨cs2, hr⟩ | hc
      · exact Or.inl (by simp [hp])
      · rcases List.mem_append.mp hr with h1 | h2
        · exact Or.inr (Or.inl ⟨cs2, by simp [h1]⟩)
        · rcases List.mem_cons.mp h2 with heq | h2'
          · obtain ⟨rfl, rfl⟩ : x = t ∧ cs2 = c :: cs := by
              simpa [Prod.ext_iff] using heq
            exact Or.inr (Or.inl ⟨cs, by simp⟩)
          · exact Or.inr (Or.inl ⟨cs2, by simp [h2']⟩)
      · exact Or.inr (Or.inr hc)
  | done t pend run1 run2 comp =>
      rcases hx with hp | ⟨cs2, hr⟩ | hc
      · exact Or.inl hp
      · rcases List.mem_append.mp hr with h1 | h2
        · exact Or.inr (Or.inl ⟨cs2, by simp [h1]⟩)
        · rcases List.mem_cons.mp h2 with heq | h2'
          · obtain ⟨rfl, -⟩ : x = t ∧ cs2 = [] := by
              simpa [Prod.ext_iff] using heq
            exact Or.inr (Or.inr (by simp))
          · exact Or.inr (Or.inl ⟨cs2, by simp [h2']⟩)
      · exact Or.inr (Or.inr (by simp [hc]))

theorem poolStep_inv {children : Nat → List Nat} {init : List Nat}
    {s s' : PoolState} (h : PoolStep children s s')
    (hinv : PoolInv children init s) : PoolInv children init s' := by
  obtain ⟨h1, h2, h3⟩ := hinv
  refine ⟨fun t ht => poolStep_inSystem h t (h1 t ht), ?_, ?_⟩
  · cases h with
    | get t rest run comp =>
        intro p hp
        rcases List.mem_append.mp hp with hp1 | hp2
        · obtain ⟨pre, hpre, hpin⟩ := h2 p hp1
          exact ⟨pre, hpre, fun d hd =>
            poolStep_inSystem (@PoolStep.get children t rest run comp) d (hpin d hd)⟩
        · obtain rfl : p = (t, children t) := by simpa using hp2
          exact ⟨[], by simp, by simp⟩
    | enq t c cs pend run1 run2 comp =>
        intro p hp
        rcases List.mem_append.mp hp with hp1 | hp2
        · obtain ⟨pre, hpre, hpin⟩ := h2 p (by simp [hp1])
          exact ⟨pre, hpre, fun d hd =>
            poolStep_inSystem (@PoolStep.enq children t c cs pend run1 run2 comp) d
              (hpin d hd)⟩
        · rcases List.mem_cons.mp hp2 with rfl | hp2'
          · obtain ⟨pre, hpre, hpin⟩ := h2 (t, c :: cs) (by simp)
            refine ⟨pre ++ [c], by simp [hpre], ?_⟩
            intro d hd
            rcases List.mem_append.mp hd with hd1 | hd2
            · exact poolStep_inSystem
                (@PoolStep.enq children t c cs pend run1 run2 comp) d
                (hpin d hd1)
            · obtain rfl : d = c := by simpa using hd2
              exact Or.inl (by simp)
          · obtain ⟨pre, hpre, hpin⟩ := h2 p (by simp [hp2'])
            exact ⟨pre, hpre, fun d hd =>
              poolStep_inSystem (@PoolStep.enq children t c cs pend run1 run2 comp) d
                (hpin d hd)⟩
    | done t pend run1 run2 comp =>
        intro p hp
        have hp0 : p ∈ run1 ++ (t, ([] : List Nat)) :: run2 := by
          rcases List.mem_append.mp hp with hp1 | hp2
          · simp [hp1]
          · simp [hp2]
        obtain ⟨pre, hpre, hpin⟩ := h2 p hp0
        exact ⟨pre, hpre, fun d hd =>
          poolStep_inSystem (@PoolStep.done children t pend run1 run2 comp) d
            (hpin d hd)⟩
  · cases h with
    | get t rest run comp =>
        intro t2 ht2 d hd
        exact poolStep_inSystem (@PoolStep.get children t rest run comp) d
          (h3 t2 ht2 d hd)
    | enq t c cs pend run1 run2 comp =>
        intro t2 ht2 d hd
        exact poolStep_inSystem (@PoolStep.enq children t c cs pend run1 run2 comp) d
          (h3 t2 ht2 d hd)
    | done t pend run1 run2 comp =>
        intro t2 ht2 d hd
        rcases List.mem_append.mp ht2 with ht2' | ht2''
        · exact poolStep_inSystem (@PoolStep.done children t pend run1 run2 comp) d
            (h3 t2 ht2' d hd)
        · obtain rfl : t2 = t := by simpa using ht2''
          obtain ⟨pre, hpre, hpin⟩ := h2 (t2, ([] : List Nat)) (by simp)
          rw [List.append_nil] at hpre
          exact poolStep_inSystem (@PoolStep.done children t2 pend run1 run2 comp) d
            (hpin d (hpre ▸ hd))

theorem poolReach_inv {children : Nat → List Nat} {init : List Nat}
    {s : PoolState} (h : PoolReach children ⟨init, [], []⟩ s) :
    PoolInv children init s := by
  induction h with
  | refl =>
      exact ⟨fun t ht => Or.inl ht,
        fun p hp => absurd hp (by simp),
        fun t ht => absurd ht (by simp)⟩
  | tail hab hbc ih => exact poolStep_inv hbc ih

/-- Claim C7: in every interleaved execution of the worker pool, once
the queue's unfinished-task counter reaches zero (`pending` and
`running` both empty — the condition `queue.join`, and hence
`pool.wait()`, unblocks on), every task enqueued before or transitively
during the wait has completed: the initial tasks are all completed and
the completed set is closed under each task's follow-on enqueues.
Before returning, `wait()` folds every worker's Stat accumulator into
one total — the total each additive stat projection of which is the sum
over the workers — resets each worker's accumulator to zero, and logs
that total via `dump`. -/
theorem C7_pool_wait_barrier (children : Nat → List Nat) (init : List Nat)
    (s : PoolState) (hreach : PoolReach children ⟨init, [], []⟩ s)
    (hpend : s.pending = []) (hrun : s.running = []) :
    ((∀ t ∈ init, t ∈ s.completed) ∧
     (∀ t ∈ s.completed, ∀ c ∈ children t, c ∈ s.completed)) ∧
    ((∀ f : Stats → Int, (∀ a b, f (Stats.add a b) = f a + f b) →
        f Stats.zero = 0 →
        ∀ ws : List Stats, f (pool_wait_stats ws).1 = (ws.map f).sum) ∧
     (∀ ws : List Stats, ∀ w ∈ (pool_wait_stats ws).2, w = Stats.zero)) := by
  obtain ⟨h1, h2, h3⟩ := poolReach_inv hreach
  have hdone : ∀ x, inSystem s x → x ∈ s.completed := by
    intro x hx
    rcases hx with hp | ⟨cs, hr⟩ | hc
    · rw [hpend] at hp; cases hp
    · rw [hrun] at hr; cases hr
    · exact hc
  refine ⟨⟨fun t ht => hdone t (h1 t ht),
    fun t ht c hc => hdone c (h3 t ht c hc)⟩, ?_, ?_⟩
  · intro f hadd hzero ws
    have key : ∀ (l : List Stats) (a : Stats),
        f (l.foldl Stats.add a) = f a + (l.map f).sum := by
      intro l
      induction l with
      | nil => intro a; simp
      | cons x xs ih =>
          intro a
          simp only [List.foldl_cons, List.map_cons, List.sum_cons]
          rw [ih, hadd]
          ring
    show f (ws.foldl Stats.add Stats.zero) = (ws.map f).sum
    rw [key ws Stats.zero, hzero, zero_add]
  · intro ws w hw
    simp only [pool_wait_stats, List.mem_map] at hw
    obtain ⟨x, hx, rfl⟩ := hw
    rfl

theorem C7_pool_wait_barrier_witness :
    (1 ∈ ([0, 1, 2] : List Nat)) ∧ (2 ∈ ([0, 1, 2] : List Nat)) := by
  have hreach : PoolReach (fun n => if n = 0 then [1, 2] else [])
      ⟨[0], [], []⟩ ⟨[], [], [0, 1, 2]⟩ := by
    refine Relation.ReflTransGen.head (PoolStep.get 0 [] [] []) ?_
    refine Relation.ReflTransGen.head (PoolStep.enq 0 1 [2] [] [] [] []) ?_
    refine Relation.ReflTransGen.head (PoolStep.enq 0 2 [] [1] [] [] []) ?_
    refine Relation.ReflTransGen.head (PoolStep.done 0 [1, 2] [] [] []) ?_
    refine Relation.ReflTransGen.head (PoolStep.get 1 [2] [] [0]) ?_
    refine Relation.ReflTransGen.head (PoolStep.done 1 [2] [] [] [0]) ?_
    refine Relation.ReflTransGen.head (PoolStep.get 2 [] [] [0, 1]) ?_
    refine Relation.ReflTransGen.head (PoolStep.done 2 [] [] [] [0, 1]) ?_
    exact Relation.ReflTransGen.refl
  have h := (C7_pool_wait_barrier (fun n => if n = 0 then [1, 2] else [])
    [0] ⟨[], [], [0, 1, 2]⟩ hreach rfl rfl).1
  exact ⟨h.2 0 (by simp) 1 (by simp), h.2 0 (by simp) 2 (by simp)⟩

end MarketAPI
